import Mathlib

/-!
Verification development for the pesc interpreter core (src/pesc.rs).

Embedding conventions, stated once here and referenced below:

* `PescNumber` is Rust's `f64`.  The interpreter core performs no floating
  point arithmetic at all: it only (a) parses decimal literals, (b) compares
  a number against `0.0` in `pop_boolean`, (c) truncates an index to `usize`
  in `nth_ref`/`set`, and (d) renders numbers.  We therefore embed numbers as
  `Rat` together with an exact decimal reader/renderer that agrees with the
  `f64` routines on the finite decimal fragment exercised by the program
  (no `inf`/`NaN`/exponent spellings; those are unreachable from the digit
  lexer branch, which only admits digits, `.` and `_`).  `f64` makes
  `-0.0 == 0.0` true, so the single `Rat` zero is a faithful image of the
  zero test in `pop_boolean`.
* Rust's `HashMap` registries (`funcs`, `ops`) are embedded as association
  lists where insertion conses at the front and lookup takes the leftmost
  binding; this is observationally the insert/overwrite/lookup behaviour
  the code uses.
* Registered functions are Rust closures `Fn(&mut Pesc) -> Result<(), E>`.
  The whole development is parametrised by an opaque type `F` of function
  implementations and a semantics `app : F -> Pesc F -> Option (Pesc F × Option E)`:
  the closure receives the engine, returns the mutated engine plus either
  success (`none`) or an error value; the outer `Option` is `none` when the
  closure itself diverges by panicking.
* A Rust panic (reachable in `eval` through the unchecked `self.ops[o]`
  index) is embedded as the `none` result of an `Option`-valued function.
* `chs[i].is_numeric()` is embedded as `Char.isDigit`; the two agree on
  every ASCII character, and every theorem that quantifies over lexed
  characters restricts itself to ASCII (see `opCandidate`).  For a
  non-ASCII Unicode-numeric character the real program enters the number
  rule, `chomp` collects nothing (`is_digit(10)` is false for it), and the
  parse fails with `InvalidNumberLit("")`; that case, like non-ASCII input
  generally, is outside the embedded fragment and outside every theorem
  below.  Likewise the `'{'` branch slices the input by byte offset `i+1`,
  which for ASCII input is the same as dropping `i+1` characters, which is
  how we embed it.
* The `Display` impl prints a `Macro` via its allocation address (`{:p}`).
  Memory addresses are not representable in a shallow embedding, so `render`
  is parametrised by an arbitrary address-printing function `macAddr`.
-/

/-- Tokens of the pesc language, from `enum PescToken` in src/pesc.rs.
`Number` carries a `PescNumber = f64`, embedded as `Rat` (see header). -/
inductive PescToken where
  | Str : String → PescToken
  | Number : Rat → PescToken
  | Func : String → PescToken
  | Macro : List PescToken → PescToken
  | Symbol : Char → PescToken
  | Bool : Bool → PescToken

mutual

/-- Decision procedure for equality of tokens (the nested `Macro` field puts
this outside the reach of automatic deriving). -/
def tokDecEq : (a b : PescToken) → Decidable (a = b)
  | .Str x, .Str y => if h : x = y then isTrue (by rw [h]) else isFalse (by simp [h])
  | .Str _, .Number _ => isFalse nofun
  | .Str _, .Func _ => isFalse nofun
  | .Str _, .Macro _ => isFalse nofun
  | .Str _, .Symbol _ => isFalse nofun
  | .Str _, .Bool _ => isFalse nofun
  | .Number _, .Str _ => isFalse nofun
  | .Number x, .Number y => if h : x = y then isTrue (by rw [h]) else isFalse (by simp [h])
  | .Number _, .Func _ => isFalse nofun
  | .Number _, .Macro _ => isFalse nofun
  | .Number _, .Symbol _ => isFalse nofun
  | .Number _, .Bool _ => isFalse nofun
  | .Func _, .Str _ => isFalse nofun
  | .Func _, .Number _ => isFalse nofun
  | .Func x, .Func y => if h : x = y then isTrue (by rw [h]) else isFalse (by simp [h])
  | .Func _, .Macro _ => isFalse nofun
  | .Func _, .Symbol _ => isFalse nofun
  | .Func _, .Bool _ => isFalse nofun
  | .Macro _, .Str _ => isFalse nofun
  | .Macro _, .Number _ => isFalse nofun
  | .Macro _, .Func _ => isFalse nofun
  | .Macro x, .Macro y =>
    match tokListDecEq x y with
    | isTrue h => isTrue (by rw [h])
    | isFalse h => isFalse (by simp [h])
  | .Macro _, .Symbol _ => isFalse nofun
  | .Macro _, .Bool _ => isFalse nofun
  | .Symbol _, .Str _ => isFalse nofun
  | .Symbol _, .Number _ => isFalse nofun
  | .Symbol _, .Func _ => isFalse nofun
  | .Symbol _, .Macro _ => isFalse nofun
  | .Symbol x, .Symbol y => if h : x = y then isTrue (by rw [h]) else isFalse (by simp [h])
  | .Symbol _, .Bool _ => isFalse nofun
  | .Bool _, .Str _ => isFalse nofun
  | .Bool _, .Number _ => isFalse nofun
  | .Bool _, .Func _ => isFalse nofun
  | .Bool _, .Macro _ => isFalse nofun
  | .Bool _, .Symbol _ => isFalse nofun
  | .Bool x, .Bool y => if h : x = y then isTrue (by rw [h]) else isFalse (by simp [h])

/-- Decision procedure for equality of token lists. -/
def tokListDecEq : (a b : List PescToken) → Decidable (a = b)
  | [], [] => isTrue rfl
  | [], _ :: _ => isFalse nofun
  | _ :: _, [] => isFalse nofun
  | a :: as, b :: bs =>
    match tokDecEq a b, tokListDecEq as bs with
    | isTrue h1, isTrue h2 => isTrue (by rw [h1, h2])
    | isFalse h1, _ => isFalse (by intro h; injection h; contradiction)
    | _, isFalse h2 => isFalse (by intro h; injection h; contradiction)

end

instance : DecidableEq PescToken := tokDecEq

/-- Modelled from the spec: the error kinds of `PescErrorType` live in the
repository's `errors.rs`, which is not among the provided sources; section 7
of the specification fixes the closed set
`UnknownFunction(name)`, `InvalidArgumentType(expected, actual_rendered)`,
`InvalidNumberLit(raw_text)`, `OutOfBounds(index, length)`,
`NotEnoughArguments`, `InvalidBoolean(value)`, with payload types read off
from the construction sites in src/pesc.rs. -/
inductive PescErrorType where
  | UnknownFunction : String → PescErrorType
  | InvalidArgumentType : String → String → PescErrorType
  | InvalidNumberLit : String → PescErrorType
  | OutOfBounds : Rat → Nat → PescErrorType
  | NotEnoughArguments : PescErrorType
  | InvalidBoolean : PescToken → PescErrorType
  deriving DecidableEq

/-- Modelled from the spec: `PescError` (also in the missing `errors.rs`) is
a structured error carrying an optional character offset and an optional
offending token around a `PescErrorType`; the two construction sites in
src/pesc.rs are `PescError::new(Some(i), None, kind)` in `parse` and
`PescError::new(None, Some(token), kind)` in `eval`. -/
structure PescError where
  offset : Option Nat
  token : Option PescToken
  kind : PescErrorType
  deriving DecidableEq

/-- Equality of `Except` results is decidable when it is on both sides;
utility instance used by the concrete evaluations below. -/
instance {α β : Type} [DecidableEq α] [DecidableEq β] : DecidableEq (Except α β) :=
  fun a b =>
    match a, b with
    | .ok x, .ok y => if h : x = y then isTrue (by rw [h]) else isFalse (by simp [h])
    | .ok _, .error _ => isFalse nofun
    | .error _, .ok _ => isFalse nofun
    | .error x, .error y => if h : x = y then isTrue (by rw [h]) else isFalse (by simp [h])

/-- Engine state, from `struct Pesc` in src/pesc.rs.  `F` is the opaque type
of registered function implementations (`Rc<Box<PescFunc>>` in the source);
the registries are association lists embedding the two `HashMap`s. -/
structure Pesc (F : Type) where
  stack : List PescToken
  funcs : List (String × F)
  ops : List (Char × String)
  deriving DecidableEq

/-- Whether a token is a `Number`. -/
def isNumberTok : PescToken → Bool
  | .Number _ => true
  | _ => false

/-- Whether a token is a `Str`. -/
def isStrTok : PescToken → Bool
  | .Str _ => true
  | _ => false

/-- Whether a token is a `Macro`. -/
def isMacroTok : PescToken → Bool
  | .Macro _ => true
  | _ => false

/-- Whether a token is a `Bool`. -/
def isBoolTok : PescToken → Bool
  | .Bool _ => true
  | _ => false

/-- The double-quote character, written via its code point to keep the
development free of quote characters outside string literals. -/
def quoteChar : Char := Char.ofNat 34

/-- The backslash character. -/
def backslashChar : Char := Char.ofNat 92

/-- The newline character. -/
def newlineChar : Char := Char.ofNat 10

/-- The tab character. -/
def tabChar : Char := Char.ofNat 9

/-- The carriage-return character. -/
def crChar : Char := Char.ofNat 13

/-- The apostrophe character. -/
def apostropheChar : Char := Char.ofNat 39

/-- `format!("'{}'", c)`: a character wrapped in single quotes, as built for
the `UnknownFunction` parse error in src/pesc.rs. -/
def squote (c : Char) : String := String.mk [apostropheChar, c, apostropheChar]

/-- Rust's `as usize` cast applied to an `f64`: truncation toward zero,
saturating at 0 for negative inputs (the cast used in `nth_ref`/`set`). -/
def ratToUsize (q : Rat) : Nat := if q < 0 then 0 else q.floor.toNat

/-- `n.0.replace("_", "")`: strip every underscore before numeric parsing. -/
def dropUnderscores (s : String) : String := String.mk (s.data.filter (· ≠ '_'))

/-- Digits value reader: `some` of the base-10 value when every character is
an ASCII digit (the empty list reads as 0), `none` otherwise.  Building block
for the embedded `str::parse::<f64>`. -/
def readDigits (ds : List Char) : Option Nat :=
  ds.foldlM (fun acc c => if c.isDigit then some (acc * 10 + (c.toNat - 48)) else none) 0

/-- Embedding of `str::parse::<PescNumber>()` on the finite decimal fragment
(see header): an optional sign, then digits with at most one decimal point
and at least one digit overall.  `inf`/`NaN`/exponent spellings, which the
digit lexer branch can never produce, are not modelled and read as `none`. -/
def rustParseFloat (s : String) : Option Rat :=
  let body : Int × List Char :=
    match s.data with
    | '-' :: r => (-1, r)
    | '+' :: r => (1, r)
    | r => (1, r)
  let ip := body.2.takeWhile (· ≠ '.')
  match body.2.dropWhile (· ≠ '.') with
  | [] =>
    if ip.isEmpty then none
    else (readDigits ip).map (fun n => mkRat (body.1 * n) 1)
  | _ :: fp =>
    if ip.isEmpty && fp.isEmpty then none
    else
      match readDigits ip, readDigits fp with
      | some n, some f =>
        -- sign * (n + f / 10^len), written over a common denominator so the
        -- value is built by the one normalising constructor `mkRat`
        some (mkRat (body.1 * (n * 10 ^ fp.length + f)) (10 ^ fp.length))
      | _, _ => none

/-- Smallest exponent `j` with `d ∣ 10^j`, when one exists (searching up to
`d`, which suffices since `d = 2^a * 5^b` forces `max a b < d`). -/
def decExp (d : Nat) : Option Nat :=
  (List.range (d + 1)).find? (fun j => 10 ^ j % d == 0)

/-- Embedding of `write!(f, "{}", n)` for `n : f64` on the finite decimal
fragment: integers print without a decimal point (Rust prints `1.0` as `1`),
other exact decimals print their shortest exact decimal expansion, which is
what Rust's shortest-roundtrip formatter emits for such values.  Rationals
with no finite decimal expansion (unreachable through parsing) fall back to
a fraction spelling. -/
def renderNumber (q : Rat) : String :=
  if q.den = 1 then toString q.num
  else
    match decExp q.den with
    | none => toString q.num ++ "/" ++ toString q.den
    | some j =>
      let m := q.num.natAbs * 10 ^ j / q.den
      let ds := Nat.toDigits 10 m
      let padded := if j + 1 ≤ ds.length then ds else List.replicate (j + 1 - ds.length) '0' ++ ds
      (if q.num < 0 then "-" else "") ++ String.mk (padded.take (padded.length - j))
        ++ "." ++ String.mk (padded.drop (padded.length - j))

/-- Per-character embedding of the escaping performed by `write!(f, "{:?}", s)`
for `s : String` (Rust's `Debug` for strings): quote, backslash, newline, tab
and carriage return escape with a backslash; other printable ASCII passes
through; remaining code points print as a unicode escape. -/
def escapeDebugChar (c : Char) : List Char :=
  if c = quoteChar then [backslashChar, quoteChar]
  else if c = backslashChar then [backslashChar, backslashChar]
  else if c = newlineChar then [backslashChar, 'n']
  else if c = tabChar then [backslashChar, 't']
  else if c = crChar then [backslashChar, 'r']
  else if 32 ≤ c.toNat && c.toNat < 127 then [c]
  else backslashChar :: 'u' :: '{' :: (Nat.toDigits 16 c.toNat) ++ ['}']

/-- A character the `{:?}` renderer passes through unchanged: printable
ASCII and none of the five escaped characters. -/
def plainChar (c : Char) : Bool :=
  decide (c ≠ quoteChar) && decide (c ≠ backslashChar) && decide (c ≠ newlineChar)
    && decide (c ≠ tabChar) && decide (c ≠ crChar)
    && decide (32 ≤ c.toNat) && decide (c.toNat < 127)

/-- The escaped spelling of a string body under `{:?}`. -/
def escapeList (l : List Char) : List Char := (l.map escapeDebugChar).flatten

/-- Embedding of `write!(f, "{:?}", s)`: the escaped body wrapped in double
quotes. -/
def rustDebugStr (s : String) : String :=
  String.mk (quoteChar :: escapeList s.data ++ [quoteChar])

section Engine

variable {F : Type}

/-- An ASCII character designating no special lexical form: not a digit,
not `.` or `_`, and none of `(`, the double quote, `[`, `{`, `}`,
whitespace, backslash, `T`, `F`.  Exactly these characters reach the
operator branch of `parse`.  The ASCII bound keeps the predicate inside
the fragment where the embedded digit test coincides with the source's
`is_numeric()`: a non-ASCII Unicode-numeric key would instead be captured
by the program's number rule and fail with `InvalidNumberLit("")` (see the
header), so it is excluded here rather than claimed to lex as an
operator. -/
def opCandidate (c : Char) : Bool :=
  !c.isDigit && !(c == '.') && !(c == '_') && !(c == '(') && !(c == quoteChar)
    && !(c == '[') && !(c == '{') && !(c == '}') && !(c == newlineChar)
    && !(c == tabChar) && !(c == ' ') && !(c == backslashChar)
    && !(c == 'T') && !(c == 'F') && decide (c.toNat < 128)

variable (app : F → Pesc F → Option (Pesc F × Option PescErrorType))
variable (macAddr : List PescToken → String)

/-- Embedding of the `Display` impl for `PescToken` in src/pesc.rs;
`macAddr` stands in for the `{:p}` allocation address (see header). -/
def render (tok : PescToken) : String :=
  match tok with
  | .Macro m => "<mac " ++ macAddr m ++ ">"
  | .Symbol y => "<sym " ++ squote y ++ ">"
  | .Str s => rustDebugStr s
  | .Number n => renderNumber n
  | .Func s => "<fn " ++ s ++ ">"
  | .Bool b => "(" ++ (if b then "true" else "false") ++ ")"

/-- `Pesc::load`: optionally bind the alias character in `ops`, then bind the
name in `funcs` (insert-with-overwrite, embedded as a cons). -/
def load (p : Pesc F) (op : Option Char) (fnname : String) (func : F) : Pesc F :=
  let p1 : Pesc F :=
    match op with
    | some o => { p with ops := (o, fnname) :: p.ops }
    | none => p
  { p1 with funcs := (fnname, func) :: p1.funcs }

/-- `Pesc::push`: `Vec::push`, the top of the stack being the last element. -/
def push (p : Pesc F) (v : PescToken) : Pesc F := { p with stack := p.stack ++ [v] }

/-- `Pesc::pop`: `Vec::pop` from the end, `NotEnoughArguments` when empty. -/
def pop (p : Pesc F) : Pesc F × Except PescErrorType PescToken :=
  match p.stack.getLast? with
  | some v => ({ p with stack := p.stack.dropLast }, .ok v)
  | none => (p, .error .NotEnoughArguments)

/-- `Pesc::pop_number`: pop, then require the `Number` variant. -/
def pop_number (p : Pesc F) : Pesc F × Except PescErrorType Rat :=
  match pop p with
  | (p1, .ok (.Number n)) => (p1, .ok n)
  | (p1, .ok v) => (p1, .error (.InvalidArgumentType "number" (render macAddr v)))
  | (p1, .error e) => (p1, .error e)

/-- `Pesc::pop_string`: pop, then require the `Str` variant. -/
def pop_string (p : Pesc F) : Pesc F × Except PescErrorType String :=
  match pop p with
  | (p1, .ok (.Str s)) => (p1, .ok s)
  | (p1, .ok v) => (p1, .error (.InvalidArgumentType "string" (render macAddr v)))
  | (p1, .error e) => (p1, .error e)

/-- `Pesc::pop_macro`: pop, then require the `Macro` variant. -/
def pop_mac (p : Pesc F) : Pesc F × Except PescErrorType (List PescToken) :=
  match pop p with
  | (p1, .ok (.Macro m)) => (p1, .ok m)
  | (p1, .ok v) => (p1, .error (.InvalidArgumentType "macro" (render macAddr v)))
  | (p1, .error e) => (p1, .error e)

/-- `Pesc::pop_boolean`: pop, then coerce by the value-dependent rule of
src/pesc.rs (empty string false, other strings true; zero false, other
numbers true; booleans unchanged; anything else `InvalidBoolean`). -/
def pop_boolean (p : Pesc F) : Pesc F × Except PescErrorType Bool :=
  match pop p with
  | (p1, .ok v) =>
    match v with
    | .Str s => if s = "" then (p1, .ok false) else (p1, .ok true)
    | .Number n => if n = 0 then (p1, .ok false) else (p1, .ok true)
    | .Bool b => (p1, .ok b)
    | _ => (p1, .error (.InvalidBoolean v))
  | (p1, .error e) => (p1, .error e)

/-- `Pesc::nth_ref`: `self.stack.iter().rev().nth(i as usize)`, failing with
`OutOfBounds(i, len)` when the iterator is exhausted. -/
def nth_ref (p : Pesc F) (i : Rat) : Except PescErrorType PescToken :=
  match p.stack.reverse[ratToUsize i]? with
  | some v => .ok v
  | none => .error (.OutOfBounds i p.stack.length)

/-- `Pesc::set`: bounds-check `len <= i as usize`, then overwrite the element
at depth `i` from the top (`Vec` index `len - 1 - i`).  Named `set_at` (the
specification's name for this operation) because a bare `set` is ambiguous
with the monadic `set` exported by Mathlib. -/
def set_at (p : Pesc F) (i : Rat) (v : PescToken) : Pesc F × Except PescErrorType Unit :=
  let len := p.stack.length
  if len ≤ ratToUsize i then (p, .error (.OutOfBounds i len))
  else ({ p with stack := p.stack.set (len - 1 - ratToUsize i) v }, .ok ())

/-- The `PescToken::Func` arm of `Pesc::exec`: registry check, stack backup,
call, and on failure the diagnostic snapshot of the post-failure stack paired
with restoration of the backup as the live stack.  `Pesc::exec` on a `Func`
token runs exactly this code (kept separate so that `eval`, whose symbol
dispatch always builds a `Func` token, is structurally recursive); see
`exec_func_eq`. -/
def execFunc (p : Pesc F) (f : String) :
    Option (Pesc F × Option (List PescToken × PescErrorType)) :=
  match List.lookup f p.funcs with
  | none => some (p, some (p.stack, .UnknownFunction f))
  | some φ =>
    let backup := p.stack
    match app φ p with
    | none => none
    | some (p1, none) => some (p1, none)
    | some (p1, some e) => some ({ p1 with stack := backup }, some (p1.stack, e))

/-- `Pesc::eval`: push every non-symbol token; resolve a symbol through
`ops` (an unchecked `HashMap` index — a missing key panics, embedded as the
`none` result) and execute the named function, wrapping a failure with the
offending token. -/
def eval (p : Pesc F) :
    List PescToken → Option (Pesc F × Option (List PescToken × PescError))
  | [] => some (p, none)
  | t :: rest =>
    match t with
    | .Symbol o =>
      match List.lookup o p.ops with
      | none => none
      | some fname =>
        match execFunc app p fname with
        | none => none
        | some (p1, none) => eval p1 rest
        | some (p1, some (b, e)) => some (p1, some (b, ⟨none, some t, e⟩))
    | _ => eval (push p t) rest

/-- `Pesc::exec`: dispatch on the token — named function call, macro body
evaluation (unwrapping the error to its kind), or an immediate
`InvalidArgumentType` for non-callable values. -/
def exec (p : Pesc F) (tok : PescToken) :
    Option (Pesc F × Option (List PescToken × PescErrorType)) :=
  match tok with
  | .Func f => execFunc app p f
  | .Macro mac =>
    match eval app p mac with
    | none => none
    | some (p1, none) => some (p1, none)
    | some (p1, some (b, err)) => some (p1, some (b, err.kind))
  | _ => some (p, some (p.stack, .InvalidArgumentType "macro/function" (render macAddr tok)))

/-- `Pesc::try_exec`: `exec` with the stack snapshot discarded from the
error. -/
def try_exec (p : Pesc F) (tok : PescToken) : Option (Pesc F × Option PescErrorType) :=
  match exec app macAddr p tok with
  | none => none
  | some (p1, none) => some (p1, none)
  | some (p1, some (_, e)) => some (p1, some e)

end Engine

/-- The inner `chomp` helper of `Pesc::parse`: starting at index `c`, append
characters while in bounds and the `until` predicate is false, returning the
collected buffer and the final index.  The loop collects exactly the longest
prefix of `ch.drop c` on which `until` is false. -/
def chomp (ch : List Char) (c : Nat) (until_ : Char → Bool) : String × Nat :=
  let buf := (ch.drop c).takeWhile (fun x => !(until_ x))
  (String.mk buf, c + buf.length)

/-- The scanning loop of `Pesc::parse` over the materialised character array,
with cursor `i` and accumulated tokens `toks`.  `fuel` bounds the number of
loop steps; every step either returns or strictly advances the cursor (or
recurses into a strictly shorter slice), so the bound `2 * length + 2`
supplied by `parse` can never be exhausted — exhaustion would yield `none`,
and every theorem below exhibits a `some` result. -/
def parseGo (ops : List (Char × String)) :
    Nat → List Char → Nat → List PescToken →
    Option (Except PescError (Nat × List PescToken))
  | 0, _, _, _ => none
  | fuel + 1, chs, i, toks =>
    if h : i < chs.length then
      let c := chs[i]
      if c.isDigit || c == '.' || c == '_' then
        let n := chomp chs i (fun x => !x.isDigit && x ≠ '_' && x ≠ '.')
        match rustParseFloat (dropUnderscores n.1) with
        | none => some (.error ⟨some n.2, none, .InvalidNumberLit n.1⟩)
        | some num => parseGo ops fuel chs n.2 (toks ++ [.Number num])
      else if c == '(' then
        let n := chomp chs (i + 1) (fun x => x == ')')
        match rustParseFloat (dropUnderscores n.1) with
        | none => some (.error ⟨some (n.2 + 1), none, .InvalidNumberLit n.1⟩)
        | some num => parseGo ops fuel chs (n.2 + 1) (toks ++ [.Number num])
      else if c == quoteChar then
        let s := chomp chs (i + 1) (fun x => x == quoteChar)
        parseGo ops fuel chs (s.2 + 1) (toks ++ [.Str s.1])
      else if c == '[' then
        let s := chomp chs (i + 1) (fun x => x == ']')
        parseGo ops fuel chs (s.2 + 1) (toks ++ [.Func s.1])
      else if c == '{' then
        match parseGo ops fuel (chs.drop (i + 1)) 0 [] with
        | none => none
        | some (.error e) => some (.error e)
        | some (.ok res) => parseGo ops fuel chs (i + res.1 + 2) (toks ++ [.Macro res.2])
      else if c == '}' then
        some (.ok (i, toks))
      else if c == newlineChar || c == tabChar || c == ' ' then
        parseGo ops fuel chs (i + 1) toks
      else if c == backslashChar then
        parseGo ops fuel chs ((chomp chs (i + 1) (fun x => x == newlineChar || x == backslashChar)).2 + 1) toks
      else if c == 'T' then
        parseGo ops fuel chs (i + 1) (toks ++ [.Bool true])
      else if c == 'F' then
        parseGo ops fuel chs (i + 1) (toks ++ [.Bool false])
      else
        if (List.lookup c ops).isSome then
          parseGo ops fuel chs (i + 1) (toks ++ [.Symbol c])
        else
          some (.error ⟨some i, none, .UnknownFunction (squote c)⟩)
    else
      some (.ok (i, toks))

/-- `Pesc::parse`: scan the character array of the input from cursor 0.  The
`ops` argument is the `self.ops` registry the method reads.  The fuel bound
can never be reached (see `parseGo`). -/
def parse (ops : List (Char × String)) (input : String) :
    Option (Except PescError (Nat × List PescToken)) :=
  parseGo ops (2 * input.length + 2) input.data 0 []

/-- Demonstration function implementation type for the concrete witnesses:
the implementation carries no data, and the chosen `app` semantics below
supply the behaviour. -/
def demoAddr : List PescToken → String := fun _ => ""

/-- Demonstration semantics: push `7`, then fail with `NotEnoughArguments`
(a function that mutates the stack and then errors). -/
def demoApp : Unit → Pesc Unit → Option (Pesc Unit × Option PescErrorType) :=
  fun _ q => some (push q (.Number 7), some .NotEnoughArguments)

/-- Demonstration semantics: push `3` and succeed. -/
def demoAppOk : Unit → Pesc Unit → Option (Pesc Unit × Option PescErrorType) :=
  fun _ q => some (push q (.Number 3), none)

/-- `Pesc::exec` on a `Func` token is exactly `execFunc`. -/
theorem exec_func_eq {F : Type} (app : F → Pesc F → Option (Pesc F × Option PescErrorType))
    (macAddr : List PescToken → String) (p : Pesc F) (f : String) :
    exec app macAddr p (.Func f) = execFunc app p f := rfl

/-- Casting a natural number through the `f64`-to-`usize` truncation is the
identity. -/
theorem ratToUsize_natCast (n : Nat) : ratToUsize (n : Rat) = n := by
  have h1 : ¬((n : Rat) < 0) := not_lt.mpr (by exact_mod_cast Nat.zero_le n)
  simp [ratToUsize, h1, Rat.floor, Rat.den_natCast, Rat.num_natCast]

/-- Scanning stops exactly at the terminating quote: the consumed prefix of
a quote-terminated character list is the whole quote-free body. -/
theorem takeWhile_no_quote (l r : List Char) (h : ∀ c ∈ l, (c == quoteChar) = false) :
    (l ++ quoteChar :: r).takeWhile (fun x => !(x == quoteChar)) = l := by
  induction l with
  | nil => simp
  | cons c cs ih =>
    simp only [List.cons_append, List.takeWhile_cons]
    rw [h c (by simp)]
    simp [ih (fun x hx => h x (by simp [hx]))]

/-- A cursor at or past the end of the input makes the scanning loop return
the accumulated tokens. -/
theorem parseGo_oor (ops : List (Char × String)) (fuel : Nat) (chs : List Char) (i : Nat)
    (toks : List PescToken) (hf : 0 < fuel) (hi : chs.length ≤ i) :
    parseGo ops fuel chs i toks = some (.ok (i, toks)) := by
  obtain ⟨k, rfl⟩ := Nat.exists_eq_succ_of_ne_zero (Nat.pos_iff_ne_zero.mp hf)
  simp [parseGo, Nat.not_lt.mpr hi]

/-- One step of the scanning loop on a double quote: collect the string body
up to the closing quote and continue past it. -/
theorem parseGo_quote_step (ops : List (Char × String)) (fuel : Nat) (chs : List Char)
    (i : Nat) (toks : List PescToken) (hi : i < chs.length) (hq : chs[i] = quoteChar) :
    parseGo ops (fuel + 1) chs i toks =
      parseGo ops fuel chs ((chomp chs (i + 1) (fun x => x == quoteChar)).2 + 1)
        (toks ++ [.Str (chomp chs (i + 1) (fun x => x == quoteChar)).1]) := by
  simp [parseGo, hi, hq, quoteChar, Char.ofNat]

/-- One step of the scanning loop on an unregistered operator character,
shown for `<` (the character every `Func`/`Macro` rendering starts with):
the loop fails immediately with `UnknownFunction` at the cursor. -/
theorem parseGo_head_lt (ops : List (Char × String)) (fuel : Nat) (chs : List Char)
    (i : Nat) (toks : List PescToken) (hi : i < chs.length) (hc : chs[i] = '<')
    (hk : List.lookup '<' ops = none) :
    parseGo ops (fuel + 1) chs i toks =
      some (.error ⟨some i, none, .UnknownFunction (squote '<')⟩) := by
  simp [parseGo, hi, hc, hk, quoteChar, backslashChar, newlineChar, tabChar, Char.ofNat]

/-- Parsing any input that starts with `<` fails at offset 0 with
`UnknownFunction` whenever `<` is not a registered operator character. -/
theorem parse_head_lt (ops : List (Char × String)) (input : String) (rest : List Char)
    (hd : input.data = '<' :: rest) (hk : List.lookup '<' ops = none) :
    parse ops input = some (.error ⟨some 0, none, .UnknownFunction (squote '<')⟩) := by
  have hlen : input.length = rest.length + 1 := by
    show input.data.length = rest.length + 1
    rw [hd]; simp
  rw [parse, hlen, hd]
  exact parseGo_head_lt ops (2 * (rest.length + 1) + 1) _ 0 [] (by simp) (by simp) hk

/-- A plain character passes through the `{:?}` escaper unchanged. -/
theorem escapeDebugChar_plain (c : Char) (h : plainChar c = true) :
    escapeDebugChar c = [c] := by
  simp only [plainChar, Bool.and_eq_true, decide_eq_true_eq] at h
  obtain ⟨⟨⟨⟨⟨⟨h1, h2⟩, h3⟩, h4⟩, h5⟩, h6⟩, h7⟩ := h
  simp [escapeDebugChar, h1, h2, h3, h4, h5, h6, h7]

/-- A list of plain characters passes through the `{:?}` escaper unchanged. -/
theorem escapeList_plain (l : List Char) (h : ∀ c ∈ l, plainChar c = true) :
    escapeList l = l := by
  induction l with
  | nil => simp [escapeList]
  | cons c cs ih =>
    simp only [escapeList, List.map_cons, List.flatten_cons]
    rw [escapeDebugChar_plain c (h c (by simp))]
    have h2 := ih (fun x hx => h x (by simp [hx]))
    simp only [escapeList] at h2
    simp [h2]

/-- Reparsing the rendered form of a plain string literal recovers exactly
the original string token. -/
theorem parse_rustDebugStr (ops : List (Char × String)) (s : String)
    (h : ∀ c ∈ s.data, plainChar c = true) :
    parse ops (rustDebugStr s) = some (.ok (s.length + 2, [.Str s])) := by
  have hq : ∀ c ∈ s.data, (c == quoteChar) = false := by
    intro c hc
    have h2 := h c hc
    simp only [plainChar, Bool.and_eq_true, decide_eq_true_eq] at h2
    simp [h2.1.1.1.1.1.1]
  have hdata : (rustDebugStr s).data = quoteChar :: s.data ++ [quoteChar] := by
    simp [rustDebugStr, escapeList_plain s.data h]
  have hlen : (rustDebugStr s).length = s.data.length + 2 := by
    show (rustDebugStr s).data.length = s.data.length + 2
    rw [hdata]; simp
  have hslen : s.length = s.data.length := rfl
  rw [parse, hlen, hdata, hslen]
  rw [show 2 * (s.data.length + 2) + 2 = (2 * (s.data.length + 2) + 1) + 1 from rfl]
  rw [parseGo_quote_step ops _ _ 0 [] (by simp) (by simp)]
  have hchomp : chomp (quoteChar :: s.data ++ [quoteChar]) (0 + 1) (fun x => x == quoteChar)
      = (s, 1 + s.data.length) := by
    simp only [chomp]
    rw [show (quoteChar :: s.data ++ [quoteChar]).drop (0 + 1) = s.data ++ quoteChar :: [] by simp]
    rw [takeWhile_no_quote s.data [] hq]
  rw [hchomp]
  rw [parseGo_oor ops _ _ _ _ (by omega) (by simp; omega)]
  simp
  omega

/-- Claim C1: for every registered function name and every stack state, if
invoking `FunctionRef(name)` via `exec` runs the registered function and
that function returns an error, then after `exec` returns the live stack
equals exactly the stack as it was immediately before the call (the
function's partial mutations are undone), while the returned error carries
the post-failure stack snapshot (which may differ from the restored live
stack).  Registry mutations made by the failing function do persist: only
the stack field is rolled back. -/
theorem claim_C1 {F : Type} (app : F → Pesc F → Option (Pesc F × Option PescErrorType))
    (macAddr : List PescToken → String) {p : Pesc F} {name : String} {φ : F}
    {p1 : Pesc F} {e : PescErrorType}
    (hreg : List.lookup name p.funcs = some φ)
    (happ : app φ p = some (p1, some e)) :
    exec app macAddr p (.Func name) =
      some ({ p1 with stack := p.stack }, some (p1.stack, e)) := by
  simp [exec, execFunc, hreg, happ]

/-- Witness for claim C1: a registered function that pushes `7` and then
fails leaves the live stack at its pre-call value `[1]` while the error
carries the post-failure snapshot `[1, 7]`. -/
theorem claim_C1_witness :
    List.lookup "f" ([("f", ())] : List (String × Unit)) = some () ∧
    demoApp () ⟨[.Number 1], [("f", ())], []⟩ =
      some (⟨[.Number 1, .Number 7], [("f", ())], []⟩, some .NotEnoughArguments) ∧
    exec demoApp demoAddr ⟨[.Number 1], [("f", ())], []⟩ (.Func "f") =
      some (⟨[.Number 1], [("f", ())], []⟩,
        some ([.Number 1, .Number 7], .NotEnoughArguments)) :=
  ⟨rfl, rfl,
    @claim_C1 Unit demoApp demoAddr ⟨[.Number 1], [("f", ())], []⟩ "f" ()
      ⟨[.Number 1, .Number 7], [("f", ())], []⟩ .NotEnoughArguments rfl rfl⟩

/-- Claim C2: parsing `{1 2{3}4}` produces exactly the one-token sequence
`[Macro [1, 2, Macro [3], 4]]` (for any operator registry, since no
character of the input reaches the operator branch), and evaluating the
block body against any engine pushes `1, 2, Macro [3], 4` in that order
onto the stack, touching nothing else and invoking nothing (the inner block
is pushed as a value, not executed). -/
theorem claim_C2 :
    (∀ ops : List (Char × String),
      parse ops (String.mk ['{', '1', ' ', '2', '{', '3', '}', '4', '}']) =
        some (.ok (9, [.Macro [.Number 1, .Number 2, .Macro [.Number 3], .Number 4]]))) ∧
    (∀ (F : Type) (app : F → Pesc F → Option (Pesc F × Option PescErrorType)) (p : Pesc F),
      eval app p [.Number 1, .Number 2, .Macro [.Number 3], .Number 4] =
        some ({ p with
          stack := p.stack ++ [.Number 1, .Number 2, .Macro [.Number 3], .Number 4] },
          none)) := by
  constructor
  · intro ops
    rw [show (1 : Rat) = mkRat 1 1 by norm_num [mkRat]]
    rw [show (2 : Rat) = mkRat 2 1 by norm_num [mkRat]]
    rw [show (3 : Rat) = mkRat 3 1 by norm_num [mkRat]]
    rw [show (4 : Rat) = mkRat 4 1 by norm_num [mkRat]]
    rfl
  · intro F app p
    simp [eval, push, List.append_assoc]

/-- Claim C3: invoking a `FunctionRef` whose name is absent from the
functions registry at the moment of invocation fails with
`UnknownFunction(name)` and leaves the engine (in particular the stack)
unchanged; when the invocation is triggered by an `Operator` token during
`eval`, the propagated error additionally records that offending token. -/
theorem claim_C3 :
    (∀ (F : Type) (app : F → Pesc F → Option (Pesc F × Option PescErrorType))
        (macAddr : List PescToken → String) (p : Pesc F) (name : String),
        List.lookup name p.funcs = none →
        exec app macAddr p (.Func name) =
          some (p, some (p.stack, .UnknownFunction name))) ∧
    (∀ (F : Type) (app : F → Pesc F → Option (Pesc F × Option PescErrorType))
        (p : Pesc F) (c : Char) (name : String),
        List.lookup c p.ops = some name →
        List.lookup name p.funcs = none →
        eval app p [.Symbol c] =
          some (p, some (p.stack, ⟨none, some (.Symbol c), .UnknownFunction name⟩))) := by
  constructor
  · intro F app macAddr p name h
    simp [exec, execFunc, h]
  · intro F app p c name h1 h2
    simp [eval, execFunc, h1, h2]

/-- Witness for claim C3: calling the unregistered `"g"` directly, and the
alias `+` bound to the unregistered `"add"`, both fail with
`UnknownFunction` and leave the engine untouched. -/
theorem claim_C3_witness :
    List.lookup "g" ([] : List (String × Unit)) = none ∧
    exec demoApp demoAddr (⟨[], [], []⟩ : Pesc Unit) (.Func "g") =
      some (⟨[], [], []⟩, some ([], .UnknownFunction "g")) ∧
    List.lookup '+' [('+', "add")] = some "add" ∧
    eval demoApp (⟨[], [], [('+', "add")]⟩ : Pesc Unit) [.Symbol '+'] =
      some (⟨[], [], [('+', "add")]⟩,
        some ([], ⟨none, some (.Symbol '+'), .UnknownFunction "add"⟩)) :=
  ⟨rfl, claim_C3.1 Unit demoApp demoAddr ⟨[], [], []⟩ "g" rfl, rfl,
    claim_C3.2 Unit demoApp ⟨[], [], [('+', "add")]⟩ '+' "add" rfl rfl⟩

/-- Claim C4, counterexample: `'T'` is a key of the operators table, yet
parsing the text `T` emits `Bool true`, not the operator token
`Symbol 'T'` — the boolean-literal rule fires before the operator rule, so
the claim is false as stated for operator keys captured by an earlier
lexical rule. -/
theorem claim_C4_counterexample :
    List.lookup 'T' [('T', "x")] = some "x" ∧
    parse [('T', "x")] "T" = some (.ok (1, [.Bool true])) ∧
    PescToken.Bool true ≠ .Symbol 'T' :=
  ⟨rfl, rfl, by decide⟩

/-- Claim C4, amended: for every ASCII character `c` that is a key of the
operators table at parse time and is not captured by an earlier lexical
rule (not a digit, `.`, `_`, `(`, quote, `[`, `{`, `}`, whitespace,
backslash, `T` or `F`), parsing the one-character text `c` emits the
operator token `Symbol c`; if after parsing `register` binds `c` to a
function name with an implementation, evaluating that token succeeds by
invoking the currently registered function — both the alias-to-name and
name-to-function lookups read the registries as they exist at evaluation
time.  (A non-ASCII Unicode-numeric key is likewise not captured by the
operator rule: the program's number rule claims it and fails with
`InvalidNumberLit("")`; the ASCII bound of `opCandidate` keeps that case,
which lies outside the embedded fragment, out of the quantification.) -/
theorem claim_C4 {F : Type} (app : F → Pesc F → Option (Pesc F × Option PescErrorType))
    (ops : List (Char × String)) (c : Char) (fname : String) (φ : F)
    (p p2 : Pesc F)
    (hcand : opCandidate c = true)
    (hkey : (List.lookup c ops).isSome = true)
    (happ : app φ (load p (some c) fname φ) = some (p2, none)) :
    parse ops (String.singleton c) = some (.ok (1, [.Symbol c])) ∧
    eval app (load p (some c) fname φ) [.Symbol c] = some (p2, none) := by
  constructor
  · simp only [opCandidate, Bool.and_eq_true, Bool.not_eq_true'] at hcand
    obtain ⟨⟨⟨⟨⟨⟨⟨⟨⟨⟨⟨⟨⟨⟨h1, h2⟩, h3⟩, h4⟩, h5⟩, h6⟩, h7⟩, h8⟩, h9⟩, h10⟩, h11⟩,
      h12⟩, h13⟩, h14⟩, h15⟩ := hcand
    simp [parse, String.singleton, parseGo, h1, h2, h3, h4, h5, h6, h7, h8, h9,
      h10, h11, h12, h13, h14, hkey]
  · simp only [load] at happ
    simp [load, eval, execFunc, List.lookup, happ]

/-- Witness for claim C4: `+` is a registered alias character at parse
time (bound to `"old"`), parsing `+` emits `Symbol '+'`, and after
re-registering `+` to the then-implemented `"add"` the evaluation invokes
it (pushing `3`). -/
theorem claim_C4_witness :
    opCandidate '+' = true ∧
    (List.lookup '+' [('+', "old")]).isSome = true ∧
    demoAppOk () (load ⟨[], [], []⟩ (some '+') "add" ()) =
      some (⟨[.Number 3], [("add", ())], [('+', "add")]⟩, none) ∧
    (parse [('+', "old")] (String.singleton '+') = some (.ok (1, [.Symbol '+'])) ∧
      eval demoAppOk (load ⟨[], [], []⟩ (some '+') "add" ()) [.Symbol '+'] =
        some (⟨[.Number 3], [("add", ())], [('+', "add")]⟩, none)) :=
  ⟨rfl, rfl, rfl,
    claim_C4 demoAppOk [('+', "old")] '+' "add" () ⟨[], [], []⟩ _ rfl rfl rfl⟩

/-- Claim C5: on a non-empty stack whose top value is not of the required
variant, `pop_number`, `pop_string` and the block popper fail with
`InvalidArgumentType(expected_kind, rendered_actual_value)`, and after the
failed call the stack equals the pre-call stack with its top element
removed — the mismatched value is destructively consumed. -/
theorem claim_C5 {F : Type} (macAddr : List PescToken → String) (p : Pesc F)
    (v : PescToken) (hv : p.stack.getLast? = some v) :
    (isNumberTok v = false →
      pop_number macAddr p = ({ p with stack := p.stack.dropLast },
        .error (.InvalidArgumentType "number" (render macAddr v)))) ∧
    (isStrTok v = false →
      pop_string macAddr p = ({ p with stack := p.stack.dropLast },
        .error (.InvalidArgumentType "string" (render macAddr v)))) ∧
    (isMacroTok v = false →
      pop_mac macAddr p = ({ p with stack := p.stack.dropLast },
        .error (.InvalidArgumentType "macro" (render macAddr v)))) := by
  refine ⟨?_, ?_, ?_⟩
  · intro h; cases v <;> simp_all [pop_number, pop, isNumberTok]
  · intro h; cases v <;> simp_all [pop_string, pop, isStrTok]
  · intro h; cases v <;> simp_all [pop_mac, pop, isMacroTok]

/-- Witness for claim C5: popping a `Bool true` top through each of the
three typed poppers fails with the respective `InvalidArgumentType` and
consumes the value. -/
theorem claim_C5_witness :
    (⟨[.Bool true], [], []⟩ : Pesc Unit).stack.getLast? = some (.Bool true) ∧
    isNumberTok (.Bool true) = false ∧
    pop_number demoAddr (⟨[.Bool true], [], []⟩ : Pesc Unit) =
      (⟨[], [], []⟩, .error (.InvalidArgumentType "number" (render demoAddr (.Bool true)))) ∧
    pop_string demoAddr (⟨[.Bool true], [], []⟩ : Pesc Unit) =
      (⟨[], [], []⟩, .error (.InvalidArgumentType "string" (render demoAddr (.Bool true)))) ∧
    pop_mac demoAddr (⟨[.Bool true], [], []⟩ : Pesc Unit) =
      (⟨[], [], []⟩, .error (.InvalidArgumentType "macro" (render demoAddr (.Bool true)))) :=
  ⟨rfl, rfl,
    (claim_C5 demoAddr ⟨[.Bool true], [], []⟩ (.Bool true) rfl).1 rfl,
    (claim_C5 demoAddr ⟨[.Bool true], [], []⟩ (.Bool true) rfl).2.1 rfl,
    (claim_C5 demoAddr ⟨[.Bool true], [], []⟩ (.Bool true) rfl).2.2 rfl⟩

/-- Claim C6: `pop_boolean` on a non-empty stack follows exactly the
value-dependent coercion table: empty string false, any other string true,
the number zero false (`f64` equates `0.0` and `-0.0`, so both spellings
are the single embedded zero), any other number true, booleans unchanged,
and any other variant fails with `InvalidBoolean` carrying that value; in
every case the top element has been popped. -/
theorem claim_C6 {F : Type} (p : Pesc F) (v : PescToken)
    (hv : p.stack.getLast? = some v) :
    (v = .Str "" → pop_boolean p = ({ p with stack := p.stack.dropLast }, .ok false)) ∧
    (∀ s, s ≠ "" → v = .Str s →
      pop_boolean p = ({ p with stack := p.stack.dropLast }, .ok true)) ∧
    (v = .Number 0 → pop_boolean p = ({ p with stack := p.stack.dropLast }, .ok false)) ∧
    (∀ n : Rat, n ≠ 0 → v = .Number n →
      pop_boolean p = ({ p with stack := p.stack.dropLast }, .ok true)) ∧
    (∀ b, v = .Bool b → pop_boolean p = ({ p with stack := p.stack.dropLast }, .ok b)) ∧
    (isStrTok v = false → isNumberTok v = false → isBoolTok v = false →
      pop_boolean p = ({ p with stack := p.stack.dropLast },
        .error (.InvalidBoolean v))) := by
  refine ⟨?_, ?_, ?_, ?_, ?_, ?_⟩
  · rintro rfl; simp [pop_boolean, pop, hv]
  · rintro s hs rfl; simp [pop_boolean, pop, hv, hs]
  · rintro rfl; simp [pop_boolean, pop, hv]
  · rintro n hn rfl; simp [pop_boolean, pop, hv, hn]
  · rintro b rfl; simp [pop_boolean, pop, hv]
  · intro h1 h2 h3
    cases v <;> simp_all [pop_boolean, pop, isStrTok, isNumberTok, isBoolTok]

/-- Witness for claim C6: the empty string coerces to `false`, the number
`5` to `true`, and a `Func` top fails with `InvalidBoolean`. -/
theorem claim_C6_witness :
    (⟨[.Str ""], [], []⟩ : Pesc Unit).stack.getLast? = some (.Str "") ∧
    pop_boolean (⟨[.Str ""], [], []⟩ : Pesc Unit) = (⟨[], [], []⟩, .ok false) ∧
    pop_boolean (⟨[.Number 5], [], []⟩ : Pesc Unit) = (⟨[], [], []⟩, .ok true) ∧
    pop_boolean (⟨[.Func "f"], [], []⟩ : Pesc Unit) =
      (⟨[], [], []⟩, .error (.InvalidBoolean (.Func "f"))) :=
  ⟨rfl,
    (claim_C6 (⟨[.Str ""], [], []⟩ : Pesc Unit) (.Str "") rfl).1 rfl,
    (claim_C6 (⟨[.Number 5], [], []⟩ : Pesc Unit) (.Number 5) rfl).2.2.2.1 5
      (by norm_num) rfl,
    (claim_C6 (⟨[.Func "f"], [], []⟩ : Pesc Unit) (.Func "f") rfl).2.2.2.2.2
      rfl rfl rfl⟩

/-- Claim C7: for every natural index `n`, `nth_ref` (peek) and `set_at`
fail with `OutOfBounds(n, len)` exactly when `n ≥ len` — with the state
unmodified on failure (`nth_ref` takes the engine immutably; `set_at`
returns it unchanged) — and succeed otherwise, addressing depth `n` from
the top of the stack (`Vec` index `len - 1 - n`). -/
theorem claim_C7 {F : Type} (p : Pesc F) (n : Nat) :
    (p.stack.length ≤ n →
      nth_ref p (n : Rat) = .error (.OutOfBounds (n : Rat) p.stack.length) ∧
      ∀ v, set_at p (n : Rat) v = (p, .error (.OutOfBounds (n : Rat) p.stack.length))) ∧
    (n < p.stack.length →
      (∃ v0, nth_ref p (n : Rat) = .ok v0 ∧
        p.stack.get? (p.stack.length - 1 - n) = some v0) ∧
      ∀ v, set_at p (n : Rat) v =
        ({ p with stack := p.stack.set (p.stack.length - 1 - n) v }, .ok ())) := by
  constructor
  · intro h
    constructor
    · simp [nth_ref, ratToUsize_natCast, List.getElem?_eq_none, h]
    · intro v; simp [set_at, ratToUsize_natCast, h]
  · intro h
    constructor
    · have hlt : p.stack.length - 1 - n < p.stack.length := by omega
      refine ⟨p.stack[p.stack.length - 1 - n], ?_, ?_⟩
      · simp only [nth_ref, ratToUsize_natCast]
        rw [List.getElem?_reverse (by omega)]
        simp [List.getElem?_eq_getElem hlt]
      · simp [List.getElem?_eq_getElem hlt]
    · intro v
      simp [set_at, ratToUsize_natCast, Nat.not_le.mpr h]

/-- Witness for claim C7: on the one-element stack `[5]`, index `1` is out
of bounds for both operations (leaving the engine unchanged) and index `0`
reads and overwrites the top. -/
theorem claim_C7_witness :
    nth_ref (⟨[.Number 5], [], []⟩ : Pesc Unit) ((1 : Nat) : Rat) =
      .error (.OutOfBounds ((1 : Nat) : Rat) 1) ∧
    set_at (⟨[.Number 5], [], []⟩ : Pesc Unit) ((1 : Nat) : Rat) (.Bool true) =
      (⟨[.Number 5], [], []⟩, .error (.OutOfBounds ((1 : Nat) : Rat) 1)) ∧
    nth_ref (⟨[.Number 5], [], []⟩ : Pesc Unit) ((0 : Nat) : Rat) = .ok (.Number 5) ∧
    set_at (⟨[.Number 5], [], []⟩ : Pesc Unit) ((0 : Nat) : Rat) (.Bool true) =
      (⟨[.Bool true], [], []⟩, .ok ()) := by
  have hoob := (claim_C7 (⟨[.Number 5], [], []⟩ : Pesc Unit) 1).1 (by decide)
  have hin := (claim_C7 (⟨[.Number 5], [], []⟩ : Pesc Unit) 0).2 (by decide)
  obtain ⟨⟨v0, hv1, hv2⟩, hset⟩ := hin
  refine ⟨hoob.1, hoob.2 (.Bool true), ?_, hset (.Bool true)⟩
  have hv3 : v0 = .Number 5 := by
    have := hv2
    simp at this
    exact this.symm
  rw [hv3] at hv1
  exact hv1

/-- Claim C8: whenever the scanning loop of `parse` is looking at a `}`
character it returns successfully with the local cursor position of that
`}` and the tokens accumulated so far; in particular a top-level input
starting with `}` parses to `(0, [])` whatever follows, silently
discarding the remainder. -/
theorem claim_C8 :
    (∀ (ops : List (Char × String)) (fuel : Nat) (chs : List Char) (i : Nat)
        (toks : List PescToken), chs.get? i = some '}' →
        parseGo ops (fuel + 1) chs i toks = some (.ok (i, toks))) ∧
    (∀ (ops : List (Char × String)) (post : List Char),
        parse ops (String.mk ('}' :: post)) = some (.ok (0, []))) := by
  have ha : ∀ (ops : List (Char × String)) (fuel : Nat) (chs : List Char) (i : Nat)
      (toks : List PescToken), chs.get? i = some '}' →
      parseGo ops (fuel + 1) chs i toks = some (.ok (i, toks)) := by
    intro ops fuel chs i toks h
    rw [List.get?_eq_getElem?] at h
    rw [List.getElem?_eq_some] at h
    obtain ⟨hi, hc⟩ := h
    simp [parseGo, hi, hc, quoteChar, backslashChar, newlineChar, tabChar, Char.ofNat]
  refine ⟨ha, ?_⟩
  intro ops post
  have hlen : (String.mk ('}' :: post)).length = post.length + 1 := by
    show ('}' :: post).length = post.length + 1
    simp
  rw [parse, hlen]
  exact ha ops (2 * (post.length + 1) + 1) _ 0 [] rfl

/-- Witness for claim C8: the one-character input `}` satisfies the
look-at-a-brace hypothesis at cursor 0 and the loop returns `(0, [])`;
likewise the whole text `}ab` parses to `(0, [])`, discarding `ab`. -/
theorem claim_C8_witness :
    (['}', 'a', 'b'].get? 0 = some '}') ∧
    parseGo [] 1 ['}', 'a', 'b'] 0 [] = some (.ok (0, [])) ∧
    parse [] (String.mk ['}', 'a', 'b']) = some (.ok (0, [])) :=
  ⟨rfl, claim_C8.1 [] 0 ['}', 'a', 'b'] 0 [] rfl, claim_C8.2 [] ['a', 'b']⟩

/-- Claim C9, counterexample — one failing instance for each part of the
claim that is false as stated.  Booleans: `T` parses to `Bool true`, which
renders as `(true)`, and reparsing that fails with `InvalidNumberLit
"true"` (the parenthesised-number rule claims it).  Strings: the interior
of a parsed string containing a backslash is escaped by the `{:?}`
renderer, so reparsing the rendering of `Str "a\b"` yields the different
token `Str "a\\b"` — the interior is not preserved unescaped.  Function
references and blocks: their renderings `<fn f>` and `<mac ...>` begin
with `<`, which (unregistered) is rejected at offset 0 with
`UnknownFunction` on reparse. -/
theorem claim_C9_counterexample :
    parse [] "T" = some (.ok (1, [.Bool true])) ∧
    render demoAddr (.Bool true) = "(true)" ∧
    parse [] "(true)" = some (.error ⟨some 6, none, .InvalidNumberLit "true"⟩) ∧
    parse [] (rustDebugStr (String.mk ['a', backslashChar, 'b'])) =
      some (.ok (6, [.Str (String.mk ['a', backslashChar, backslashChar, 'b'])])) ∧
    String.mk ['a', backslashChar, backslashChar, 'b'] ≠ String.mk ['a', backslashChar, 'b'] ∧
    render demoAddr (.Func "f") = "<fn f>" ∧
    parse [] (render demoAddr (.Func "f")) =
      some (.error ⟨some 0, none, .UnknownFunction (squote '<')⟩) ∧
    parse [] (render demoAddr (.Macro [.Number (mkRat 1 1)])) =
      some (.error ⟨some 0, none, .UnknownFunction (squote '<')⟩) :=
  ⟨rfl, rfl, rfl, rfl, by decide, rfl, rfl, rfl⟩

/-- Claim C9, amended: `parse("1_000.5")` and `parse("1000.5")` produce the
identical `Number` token (value `2001/2`), that token renders back as
`1000.5`, which reparses to the same value; a parsed string renders with
its exact interior characters and round-trips whenever no interior
character needs escaping (printable ASCII other than the quote and the
backslash — a backslash interior is escaped and fails to round-trip, see
the counterexample); boolean literals do not round-trip (see the
counterexample); and function references and blocks do not round-trip:
their renderings begin with `<`, so whenever `<` is not a registered
operator character the reparse of any `Func` or `Macro` rendering fails at
offset 0 with `UnknownFunction`. -/
theorem claim_C9 :
    (∀ ops : List (Char × String),
      parse ops "1_000.5" = some (.ok (7, [.Number (mkRat 2001 2)])) ∧
      parse ops "1000.5" = some (.ok (6, [.Number (mkRat 2001 2)]))) ∧
    renderNumber (mkRat 2001 2) = "1000.5" ∧
    (∀ (ops : List (Char × String)) (macAddr : List PescToken → String) (s : String),
      (∀ c ∈ s.data, plainChar c = true) →
      parse ops (render macAddr (.Str s)) = some (.ok (s.length + 2, [.Str s]))) ∧
    (∀ (ops : List (Char × String)) (macAddr : List PescToken → String),
      parse ops (render macAddr (.Bool true)) =
        some (.error ⟨some 6, none, .InvalidNumberLit "true"⟩)) ∧
    (∀ (ops : List (Char × String)) (macAddr : List PescToken → String)
        (s : String) (m : List PescToken), List.lookup '<' ops = none →
      parse ops (render macAddr (.Func s)) =
        some (.error ⟨some 0, none, .UnknownFunction (squote '<')⟩) ∧
      parse ops (render macAddr (.Macro m)) =
        some (.error ⟨some 0, none, .UnknownFunction (squote '<')⟩)) := by
  refine ⟨fun _ => ⟨rfl, rfl⟩, rfl,
    fun ops _ s h => parse_rustDebugStr ops s h,
    fun _ _ => rfl, ?_⟩
  intro ops macAddr s m hk
  constructor
  · refine parse_head_lt ops _ (("fn " ++ s ++ ">").data) ?_ hk
    show ("<fn " ++ s ++ ">").data = _
    simp [String.data_append]
  · refine parse_head_lt ops _ (("mac " ++ macAddr m ++ ">").data) ?_ hk
    show ("<mac " ++ macAddr m ++ ">").data = _
    simp [String.data_append]

/-- Witness for claim C9: the interior of `"abc"` is plain, and the
rendered form of the parsed string token reparses to the same token. -/
theorem claim_C9_witness :
    (∀ c ∈ ("abc" : String).data, plainChar c = true) ∧
    parse [] (render demoAddr (.Str "abc")) = some (.ok (5, [.Str "abc"])) :=
  ⟨by decide, claim_C9.2.2.1 [] demoAddr "abc" (by decide)⟩

/-- Claim C10: the alias lookup in `eval` is an unchecked map index, so an
`Operator` token whose character is absent from the operators table at
evaluation time makes `eval` panic (the `none` outcome of the embedding)
instead of returning an `UnknownFunction` error: `eval` is total only under
the precondition that every executed symbol is a key of `ops` at that
moment. -/
theorem claim_C10 {F : Type} (app : F → Pesc F → Option (Pesc F × Option PescErrorType))
    (p : Pesc F) (c : Char) (h : List.lookup c p.ops = none) :
    eval app p [.Symbol c] = none := by
  simp [eval, h]

/-- Witness for claim C10: with an empty operator table, evaluating
`Symbol '+'` panics. -/
theorem claim_C10_witness :
    List.lookup '+' (⟨[], [], []⟩ : Pesc Unit).ops = none ∧
    eval demoApp (⟨[], [], []⟩ : Pesc Unit) [.Symbol '+'] = none :=
  ⟨rfl, claim_C10 demoApp ⟨[], [], []⟩ '+' rfl⟩
